import Mathlib

/-!
Formal model of the link-builder outreach scripts.

The development shallowly embeds the two core scripts of the repository:

* `scripts/send_emails.py` — the dispatch engine (namespace `SendEmails`):
  ledger reading (`get_already_contacted`), domain validation
  (`validate_domain`), the SMTP send wrapper (`send_email`) and the per-item
  body of the `process_messages` loop (`processItem`).  External effects (DNS
  resolution, MX lookup, the SMTP relay) are abstracted into oracle records;
  everything the script computes itself (string handling, regex checks,
  control flow, ledger rows written) is modelled directly from the source.

* `scripts/find_prospects_haro.py` — the incremental sync engine (namespace
  `FindProspects`): classification (`is_haro_email`), the date-window search
  (`search_haro_emails`), watermark recovery from the markdown store
  (`get_latest_email_date_from_markdown`), the markdown renderer
  (`format_email_for_display`), the splice-based merge
  (`append_emails_to_markdown`) and the overall run (`runMain`).  Markdown
  content is modelled at the byte level as `List Char`; the mailbox and the
  e-mail date parser (`parsedate_to_datetime`) are oracles.

Python-specific behaviour that the scripts rely on is modelled explicitly:
truthiness of optional strings (`None` and `""` are both falsy), `str.strip`
over Python's whitespace set, `str.rfind`, and `re` patterns specialised to
the concrete regular expressions appearing in the source (`re.sub` with
`count=1` replaces the leftmost match only).
-/

/-- Python whitespace characters (the set stripped by `str.strip` and matched
by the regex class `\s` for ASCII text). -/
def isPySpace (c : Char) : Bool :=
  c = ' ' || c = '\t' || c = '\n' || c = '\r' || c = Char.ofNat 11 || c = Char.ofNat 12

/-- Strip python whitespace from both ends of a character list (`str.strip`). -/
def pyStripL (s : List Char) : List Char :=
  ((s.dropWhile isPySpace).reverse.dropWhile isPySpace).reverse

/-- `str.strip` on Lean strings. -/
def pyStripS (s : String) : String :=
  String.mk (pyStripL s.data)

/-- `str.lower` (ASCII case folding, as used by the scripts). -/
def lowerS (s : String) : String :=
  String.mk (s.data.map Char.toLower)

/-- Python `str.split(sep)` for a one-character separator, on character
lists: `"a@b@c".split("@") = ["a","b","c"]`, `"".split("@") = [""]`. -/
def splitOnChar (c : Char) : List Char → List (List Char)
  | [] => [[]]
  | x :: xs =>
    match splitOnChar c xs with
    | h :: t => if x = c then [] :: h :: t else (x :: h) :: t
    | [] => if x = c then [[], []] else [[x]]

namespace SendEmails

/-- Python truthiness of an optional string: `None` and `""` are falsy. -/
def truthy : Option String → Bool
  | none => false
  | some s => s ≠ ""

/-- One row of `outreach_log.csv` (fields of `log_submission` / the CSV
header `timestamp,site,contact,status,notes`; a missing CSV field reads back
as the empty string via `row.get(..., "")`). -/
structure LedgerRow where
  timestamp : String
  site : String
  contact : String
  status : String
  notes : String
deriving DecidableEq, Repr

/-- One entry of `outreach_messages_validated.json` as read by
`process_messages` (`msg_data.get(...)`; a field is `none` when absent).
`toEmail` models the JSON key `to`. -/
structure MsgData where
  site : Option String
  toEmail : Option String
  contact_form_url : Option String
  subject : Option String
  message : Option String
deriving DecidableEq, Repr

/-- Outcome of the DNS-related externals used by `validate_domain`:
whether `socket.gethostbyname` succeeds, and whether a successful
`dns.resolver.resolve(domain, "MX")` call returned an empty record list
(any MX failure or an absent dnspython is `mxKnownEmpty = false`, since the
code ignores those). -/
structure DnsOracle where
  resolves : Bool
  mxKnownEmpty : Bool
deriving DecidableEq, Repr

/-- Outcome of the SMTP relay interaction: whether the connect/login/send
sequence succeeds, and the failure message produced otherwise (the script
maps every relay exception to an error string). -/
structure RelayOracle where
  ok : Bool
  msg : String
deriving DecidableEq, Repr

/-- `extract_domain_from_email`: `None` unless the address contains `@`,
otherwise the text between the first two `@`s, lowered and stripped. -/
def extract_domain_from_email (email : String) : Option String :=
  if email = "" then none
  else
    match splitOnChar '@' email.data with
    | _ :: d :: _ => some (pyStripS (String.mk (d.map Char.toLower)))
    | _ => none

/-- Character class `[a-zA-Z0-9]` of the domain regex. -/
def isAlnum (c : Char) : Bool := c.isAlpha || c.isDigit

/-- One label of the domain regex
`[a-zA-Z0-9]([a-zA-Z0-9\-]{0,61}[a-zA-Z0-9])?`: 1–63 chars, first and last
alphanumeric, middle alphanumeric or hyphen. -/
def labelOk : List Char → Bool
  | [] => false
  | c :: cs =>
    match cs.getLast? with
    | none => isAlnum c
    | some d =>
      isAlnum c && isAlnum d && cs.dropLast.all (fun x => isAlnum x || x = '-')
        && cs.length ≤ 62

/-- The full-domain regex of `validate_domain`
(`^label(\.label)*$` with `label` as in `labelOk`), decided by splitting on
dots. -/
def domainFormatOk (s : String) : Bool :=
  (splitOnChar '.' s.data).all (fun part => labelOk part)

/-- `validate_domain`: format check, then DNS resolution, then the advisory
MX lookup (which only rejects when the MX query *succeeds* with an empty
answer; other MX failures are ignored). -/
def validate_domain (dns : DnsOracle) (domain : String) : Bool × String :=
  if domain = "" then (false, "No domain provided")
  else if ¬ domainFormatOk domain then (false, "Invalid domain format: " ++ domain)
  else if dns.resolves then
    if dns.mxKnownEmpty then (false, "Domain " ++ domain ++ " has no MX records")
    else (true, "")
  else (false, "Domain " ++ domain ++ " not found (DNS resolution failed)")

/-- `get_already_contacted`: the key set of the dict built from
`outreach_log.csv` — `(site, contact)` pairs, stripped and lowered, of rows
whose stripped-lowered status is `sent` or `opened` and whose stripped site
and contact are nonempty. -/
def alreadyContactedKeys (rows : List LedgerRow) : List (String × String) :=
  rows.filterMap (fun row =>
    let site := pyStripS row.site
    let contact := pyStripS row.contact
    let status := lowerS (pyStripS row.status)
    if (status = "sent" ∨ status = "opened") ∧ site ≠ "" ∧ contact ≠ "" then
      some (lowerS site, lowerS contact)
    else none)

/-- Character class `[a-zA-Z0-9._%+-]` (local part of the e-mail regex in
`send_email`). -/
def localChar (c : Char) : Bool :=
  c.isAlpha || c.isDigit || c = '.' || c = '_' || c = '%' || c = '+' || c = '-'

/-- Character class `[a-zA-Z0-9.-]` (domain part of the e-mail regex). -/
def domChar (c : Char) : Bool :=
  c.isAlpha || c.isDigit || c = '.' || c = '-'

/-- Rejoin dot-separated segments (inverse of `splitOnChar '.'` on its
output). -/
def joinDots : List (List Char) → List Char
  | [] => []
  | [x] => x
  | x :: xs => x ++ '.' :: joinDots xs

/-- The e-mail format regex of `send_email`,
`^[a-zA-Z0-9._%+-]+@[a-zA-Z0-9.-]+\.[a-zA-Z]{2,}$`: exactly one `@`,
nonempty local part in its class, and a domain part that splits at its last
dot into a nonempty `[a-zA-Z0-9.-]+` prefix and a trailing alphabetic
segment of length at least two. -/
def emailFormatOk (s : String) : Bool :=
  match splitOnChar '@' s.data with
  | [l, r] =>
    if l = [] then false
    else if l.all localChar then
      let parts := splitOnChar '.' r
      if parts.length < 2 then false
      else
        match parts.getLast? with
        | none => false
        | some t =>
          if t.length < 2 then false
          else if t.all Char.isAlpha then
            match joinDots parts.dropLast with
            | [] => false
            | m => m.all domChar
          else false
    else false
  | _ => false

/-- Result of one `send_email` call: success flag, message, and whether the
SMTP relay was contacted at all (a connection is only opened after the
credential, recipient, format and optional domain checks pass). -/
structure SendOutcome where
  ok : Bool
  msg : String
  relayContacted : Bool
deriving DecidableEq, Repr

/-- `send_email` (as reached at run time; the module-level default-argument
fault is modelled separately by `sendEmailsModule`): credential check,
recipient check, format regex, optional domain validation, then the relay. -/
def send_email (user pw : String) (dns : DnsOracle) (relay : RelayOracle)
    (toEmail subject message : String) (validateFirst : Bool) : SendOutcome :=
  let _ := subject
  let _ := message
  if user = "" ∨ pw = "" then
    ⟨false, "SMTP credentials not configured (SMTP_USER and SMTP_PASSWORD required)", false⟩
  else if toEmail = "" then
    ⟨false, "No recipient email address provided", false⟩
  else if ¬ emailFormatOk toEmail then
    ⟨false, "Invalid email address format: " ++ toEmail, false⟩
  else
    let domErr : Option String :=
      if validateFirst then
        match extract_domain_from_email toEmail with
        | some d =>
          if d ≠ "" then
            match validate_domain dns d with
            | (true, _) => none
            | (false, e) => some e
          else none
        | none => none
      else none
    match domErr with
    | some e => ⟨false, "Domain validation failed: " ++ e, false⟩
    | none =>
      if relay.ok then ⟨true, "Email sent successfully", true⟩
      else ⟨false, relay.msg, true⟩

/-- Terminal states of one iteration of the `process_messages` loop.  The two
skip logs of the source (contact form available / no contact at all) are kept
distinct; `DOMAIN_INVALID` is the pre-send validation failure (logged with
status `failed`). -/
inductive Outcome where
  | alreadyContacted
  | skippedFormAvailable
  | skippedNoContact
  | domainInvalid
  | sentOk
  | sendFailed
deriving DecidableEq, Repr

/-- Effects of one iteration of the `process_messages` loop: the terminal
state reached, the ledger rows appended by `log_submission` during the
iteration, and whether the SMTP relay was contacted. -/
structure StepResult where
  outcome : Outcome
  appended : List LedgerRow
  relayContacted : Bool
deriving DecidableEq, Repr

/-- One iteration of the `process_messages` loop (lines 279–352 of
`send_emails.py`): the already-contacted check (by e-mail when the `to`
field is truthy, else by contact-form URL), the two skip branches, the
pre-send domain validation, then `send_email` with
`validate_domain_first=False`. -/
def processItem (contacted : List (String × String)) (user pw : String)
    (dns : DnsOracle) (relay : RelayOracle) (now : String) (m : MsgData) : StepResult :=
  let site := m.site.getD "Unknown"
  let toE := m.toEmail
  let form := m.contact_form_url
  let subject := m.subject.getD ""
  let message := m.message.getD ""
  if truthy toE ∧ (lowerS site, lowerS (toE.getD "")) ∈ contacted then
    ⟨Outcome.alreadyContacted, [], false⟩
  else if ¬ truthy toE ∧ truthy form ∧ (lowerS site, lowerS (form.getD "")) ∈ contacted then
    ⟨Outcome.alreadyContacted, [], false⟩
  else if ¬ truthy toE then
    if truthy form then
      ⟨Outcome.skippedFormAvailable,
        [⟨now, site, form.getD "", "skipped", "No email address, contact form URL available"⟩],
        false⟩
    else
      ⟨Outcome.skippedNoContact,
        [⟨now, site, "N/A", "skipped", "No email address or contact form URL"⟩],
        false⟩
  else
    let toS := toE.getD ""
    let sendB : StepResult :=
      let r := send_email user pw dns relay toS subject message false
      if r.ok then
        ⟨Outcome.sentOk, [⟨now, site, toS, "sent", "Email sent successfully via SMTP"⟩],
          r.relayContacted⟩
      else
        ⟨Outcome.sendFailed, [⟨now, site, toS, "failed", r.msg⟩], r.relayContacted⟩
    let domainCheck : Option (Bool × String) :=
      match extract_domain_from_email toS with
      | some d => if d ≠ "" then some (validate_domain dns d) else none
      | none => none
    match domainCheck with
    | some (ok, err) =>
      if ok then sendB
      else
        ⟨Outcome.domainInvalid,
          [⟨now, site, toS, "failed", "Domain validation failed: " ++ err⟩], false⟩
    | none => sendB

/-- A top-level statement of the `send_emails.py` module, as relevant to name
resolution at import time: a plain binding (import / assignment / default-free
`def`), or a `def` whose parameter defaults reference module-level names
(defaults are evaluated when the `def` statement executes). -/
inductive PyStmt where
  | bind (name : String)
  | defWithDefaultRefs (name : String) (refs : List String)
deriving DecidableEq, Repr

/-- Execute a module top to bottom: a `def` with default expressions fails
with a `NameError` as soon as one referenced name is unbound. -/
def runModule : List String → List PyStmt → Except String (List String)
  | env, [] => Except.ok env
  | env, PyStmt.bind n :: rest => runModule (n :: env) rest
  | env, PyStmt.defWithDefaultRefs n refs :: rest =>
    match refs.find? (fun r => ¬ env.contains r) with
    | some missing => Except.error ("NameError: name " ++ missing ++ " is not defined")
    | none => runModule (n :: env) rest

/-- The top-level statement sequence of `send_emails.py`, in source order.
Only `send_email` (line 144) has defaults referencing module names:
`from_email=SMTP_FROM_EMAIL` and `from_name=SMTP_FROM_NAME`.  Line 45 binds
`SENDER_NAME` (using the *string* `"SMTP_FROM_NAME"` as a getenv key); no
statement binds the name `SMTP_FROM_NAME`. -/
def sendEmailsModule : List PyStmt :=
  [PyStmt.bind "json", PyStmt.bind "csv", PyStmt.bind "os", PyStmt.bind "smtplib",
   PyStmt.bind "socket", PyStmt.bind "re", PyStmt.bind "MIMEText",
   PyStmt.bind "MIMEMultipart", PyStmt.bind "datetime", PyStmt.bind "Path",
   PyStmt.bind "Dict", PyStmt.bind "Any", PyStmt.bind "Optional",
   PyStmt.bind "Tuple", PyStmt.bind "Set",
   PyStmt.bind "load_dotenv", PyStmt.bind "env_path",
   PyStmt.bind "DATA_DIR", PyStmt.bind "MESSAGES_FILE", PyStmt.bind "LOG_FILE",
   PyStmt.bind "SMTP_HOST", PyStmt.bind "SMTP_PORT", PyStmt.bind "SMTP_USER",
   PyStmt.bind "SMTP_PASSWORD", PyStmt.bind "SMTP_FROM_EMAIL",
   PyStmt.bind "BUSINESS_NAME", PyStmt.bind "SENDER_NAME",
   PyStmt.bind "SMTP_USE_TLS", PyStmt.bind "DOMAIN_CHECK_TIMEOUT",
   PyStmt.bind "extract_domain_from_email", PyStmt.bind "validate_domain",
   PyStmt.bind "get_already_contacted", PyStmt.bind "log_submission",
   PyStmt.defWithDefaultRefs "send_email" ["SMTP_FROM_EMAIL", "SMTP_FROM_NAME"],
   PyStmt.bind "process_messages", PyStmt.bind "main"]

end SendEmails

namespace SendEmails

/-- The contact identity of an outreach item: its `to` address when truthy,
otherwise its contact-form URL. -/
def itemContact (m : MsgData) : String :=
  if truthy m.toEmail then m.toEmail.getD "" else m.contact_form_url.getD ""


end SendEmails

namespace FindProspects

/-- One message of the remote mailbox, as visible to the sync engine:
its id, its IMAP internal date (day number, the value `SINCE` filters on),
its raw `Date:` header string, and the decoded sender / subject / body
(header decoding and MIME body extraction are external concerns; the model
works with their results). -/
structure MailMsg where
  mid : List Char
  internalDate : Int
  dateHeader : List Char
  sender : List Char
  subject : List Char
  body : List Char
deriving DecidableEq, Repr

/-- The record built by `process_haro_email` (the volatile `found_date`
timestamp is not rendered into the markdown store and is omitted). -/
structure EmailData where
  email_id : List Char
  email_date : List Char
  email_subject : List Char
  email_sender : List Char
  email_body : List Char
deriving DecidableEq, Repr

/-- Substring test (Python `pattern in s`). -/
def containsSub (pat s : List Char) : Bool :=
  (List.range (s.length + 1)).any (fun i => pat.isPrefixOf (s.drop i))

/-- `HARO_SENDER_PATTERNS` of the source. -/
def HARO_SENDER_PATTERNS : List (List Char) :=
  ["helpareporter".data, "haro".data, "help a reporter".data, "qwoted".data,
   "sourcebottle".data, "journorequests".data]

/-- `is_haro_email`: some pattern occurs in the lowered sender or the
lowered subject. -/
def is_haro_email (sender subject : List Char) : Bool :=
  HARO_SENDER_PATTERNS.any (fun p =>
    containsSub p (sender.map Char.toLower) || containsSub p (subject.map Char.toLower))

/-- `search_haro_emails`: the ids of the mailbox messages inside the search
window that classify as HARO mail, in mailbox order.  With a `since_date`
the window starts one day later (`IMAP SINCE` is inclusive); otherwise it
starts `days_back` days before now. -/
def search_haro_emails (mailbox : List MailMsg) (sinceDate : Option Int)
    (daysBack : Int) (now : Int) : List (List Char) :=
  let windowStart : Int :=
    match sinceDate with
    | some d => d + 1
    | none => now - daysBack
  ((mailbox.filter (fun m => windowStart ≤ m.internalDate)).filter
    (fun m => is_haro_email m.sender m.subject)).map (fun m => m.mid)

/-- `process_haro_email`: fetch the message by id and return its record,
or `none` when the fetch fails or the extracted body is empty. -/
def process_haro_email (mailbox : List MailMsg) (id : List Char) : Option EmailData :=
  match mailbox.find? (fun m => m.mid = id) with
  | none => none
  | some m =>
    if m.body = [] then none
    else some ⟨id, m.dateHeader, m.subject, m.sender, m.body⟩

/-- The already-known-id set of `main`
(`{req.get("email_id") for req in existing_requests if req.get("email_id")}`):
the truthy `email_id` fields of the persisted `haro_requests.json` entries. -/
def existingEmailIds (reqs : List (Option (List Char))) : List (List Char) :=
  reqs.filterMap (fun o =>
    match o with
    | some s => if s = [] then none else some s
    | none => none)

/-- Decimal digits of a natural number (Python `str(n)`), with explicit
fuel to keep the definition structural. -/
def natDigitsGo : Nat → Nat → List Char
  | 0, _ => []
  | fuel + 1, n =>
    if n < 10 then [Char.ofNat (48 + n)]
    else natDigitsGo fuel (n / 10) ++ [Char.ofNat (48 + n % 10)]

/-- Decimal digits of a natural number (Python `str(n)`). -/
def natDigits (n : Nat) : List Char :=
  natDigitsGo (n + 1) n

/-- Numeric value of a digit string (Python `int`, on the digit runs the
regexes capture). -/
def parseDigits (ds : List Char) : Nat :=
  ds.foldl (fun a c => a * 10 + (c.toNat - 48)) 0

/-- Leftmost-match data for `\*\*Total Emails:\*\*\s*(\d+)` at the head of
the input: the match length and the captured digit run. -/
def tryTotal (s : List Char) : Option (Nat × List Char) :=
  let lit := "**Total Emails:**".data
  if lit.isPrefixOf s then
    let r1 := s.drop lit.length
    let ws := r1.takeWhile isPySpace
    let r2 := r1.drop ws.length
    let ds := r2.takeWhile Char.isDigit
    if ds = [] then none else some (lit.length + ws.length + ds.length, ds)
  else none

/-- Match data for `\*\*Generated:\*\*\s*[^\n]+` at the head of the input:
the match length. -/
def tryGenerated (s : List Char) : Option Nat :=
  let lit := "**Generated:**".data
  if lit.isPrefixOf s then
    let r1 := s.drop lit.length
    let ws := r1.takeWhile isPySpace
    let r2 := r1.drop ws.length
    let cap := r2.takeWhile (fun c => c ≠ '\n')
    if cap = [] then none else some (lit.length + ws.length + cap.length)
  else none

/-- Match data for `\*\*Date:\*\*\s*(.+)` at the head of the input: the
match length and the captured run of non-newline characters. -/
def tryDate (s : List Char) : Option (Nat × List Char) :=
  let lit := "**Date:**".data
  if lit.isPrefixOf s then
    let r1 := s.drop lit.length
    let ws := r1.takeWhile isPySpace
    let r2 := r1.drop ws.length
    let cap := r2.takeWhile (fun c => c ≠ '\n')
    if cap = [] then none else some (lit.length + ws.length + cap.length, cap)
  else none

/-- `re.search` for the Total-Emails counter: value of the leftmost match. -/
def searchTotal : List Char → Option Nat
  | [] => none
  | c :: cs =>
    match tryTotal (c :: cs) with
    | some (_, ds) => some (parseDigits ds)
    | none => searchTotal cs

/-- `re.sub(..., count=1)` replacing the leftmost Total-Emails match with
the new counter. -/
def subTotal (newTotal : Nat) : List Char → List Char
  | [] => []
  | c :: cs =>
    match tryTotal (c :: cs) with
    | some (k, _) => "**Total Emails:** ".data ++ natDigits newTotal ++ (c :: cs).drop k
    | none => c :: subTotal newTotal cs

/-- `re.sub(..., count=1)` replacing the leftmost Generated match with the
new timestamp. -/
def subGenerated (nowg : List Char) : List Char → List Char
  | [] => []
  | c :: cs =>
    match tryGenerated (c :: cs) with
    | some k => "**Generated:** ".data ++ nowg ++ (c :: cs).drop k
    | none => c :: subGenerated nowg cs

/-- `re.findall` for `\*\*Date:\*\*\s*(.+)`: all captures of non-overlapping
leftmost matches (fuel bounds the scan by the input length). -/
def findDatesGo : Nat → List Char → List (List Char)
  | 0, _ => []
  | _ + 1, [] => []
  | fuel + 1, c :: cs =>
    match tryDate (c :: cs) with
    | some (k, cap) => cap :: findDatesGo fuel ((c :: cs).drop k)
    | none => findDatesGo fuel cs

/-- All `**Date:**` captures of a markdown store. -/
def findallDates (s : List Char) : List (List Char) :=
  findDatesGo s.length s

/-- `get_latest_email_date_from_markdown` given the file content: fold over
the regex captures, strip each, skip empty and `N/A` captures, parse via the
`parsedate_to_datetime` oracle, keep the strictly larger date.  Returns
`none` when no capture parses. -/
def get_latest_email_date_from_markdown (parse : List Char → Option Int)
    (content : List Char) : Option Int :=
  (findallDates content).foldl (fun latest dsRaw =>
    let ds := pyStripL dsRaw
    if ds = [] ∨ ds = "N/A".data then latest
    else
      match parse ds with
      | some d =>
        match latest with
        | none => some d
        | some l => if d > l then some d else some l
      | none => latest) none

end FindProspects

namespace FindProspects

/-- Python `"\n".join`. -/
def joinNl : List (List Char) → List Char
  | [] => []
  | [x] => x
  | x :: xs => x ++ '\n' :: joinNl xs

/-- `format_email_for_display`: the markdown block of one record (`index`
is the zero-based position, `total` the batch-final counter). -/
def format_email_for_display (e : EmailData) (index total : Nat) : List Char :=
  joinNl
    ["## Email ".data ++ natDigits (index + 1) ++ " of ".data ++ natDigits total,
     [],
     "**Subject:** ".data ++ e.email_subject,
     "**Date:** ".data ++ e.email_date,
     "**From:** ".data ++ e.email_sender,
     [],
     "**Email Body:**".data,
     [],
     "```".data,
     e.email_body,
     "```".data,
     [],
     "---".data,
     []]

/-- The rendered blocks of a batch of new records, numbered from
`currentTotal` (the loop over `new_emails` in `append_emails_to_markdown`
and in the create branch of `main`). -/
def renderBatch (es : List EmailData) (currentTotal : Nat) : List Char :=
  joinNl (es.enum.map (fun p =>
    format_email_for_display p.2 (currentTotal + p.1) (currentTotal + es.length)))

/-- The header region of a freshly created store up to and including the
blank line after the first `---` separator. -/
def storeHeader (tds gen : List Char) : List Char :=
  "# HARO Emails\n\n**Total Emails:** ".data ++ tds ++
    "\n**Generated:** ".data ++ gen ++ "\n\n---\n\n".data

/-- A freshly created markdown store over a batch of records (the
create-new-file branches of `append_emails_to_markdown` and `main`). -/
def initialMarkdown (es : List EmailData) (gen : List Char) : List Char :=
  storeHeader (natDigits es.length) gen ++ renderBatch es 0

/-- Python `str.rfind(pat)`: the largest start index of an occurrence. -/
def rfindSub (pat s : List Char) : Option Nat :=
  (((List.range (s.length + 1)).filter (fun i => pat.isPrefixOf (s.drop i)))).max?

/-- Python `str.rstrip()`. -/
def pyRstrip (s : List Char) : List Char :=
  (s.reverse.dropWhile isPySpace).reverse

/-- The trailing-whitespace skip of the `elif` branch of
`append_emails_to_markdown` (`while ... in ['\n', '\r', ' ']`). -/
def skipWsFrom (s : List Char) (p : Nat) : Nat :=
  p + ((s.drop p).takeWhile (fun c => c = '\n' || c = '\r' || c = ' ')).length

/-- `append_emails_to_markdown`: reads the current total from the first
Total-Emails match, computes the insert position from the *original*
content (after the last `"\n---\n"`, with the `rstrip`/`"---"` fallback),
renders the new blocks, rewrites the header counters with two
`re.sub(count=1)` calls, and splices the new blocks at the precomputed
position of the *updated* content.  Returns the new file content, or `none`
when nothing is written (empty batch). -/
def append_emails_to_markdown (newEmails : List EmailData)
    (existingFile : Option (List Char)) (gen : List Char) : Option (List Char) :=
  if newEmails = [] then none
  else
    let existingContent := existingFile.getD []
    let currentTotal := (searchTotal existingContent).getD 0
    let insertPos :=
      if existingContent = [] then existingContent.length
      else
        match rfindSub "\n---\n".data existingContent with
        | some i => i + 5
        | none =>
          if "---".data.isSuffixOf (pyRstrip existingContent) then
            match rfindSub "---".data existingContent with
            | some i => skipWsFrom existingContent (i + 3)
            | none => existingContent.length
          else existingContent.length
    let newBlocks := renderBatch newEmails currentTotal
    let newTotal := currentTotal + newEmails.length
    if existingContent = [] then some (initialMarkdown newEmails gen)
    else
      let updated := subGenerated gen (subTotal newTotal existingContent)
      some (updated.take insertPos ++ newBlocks ++ updated.drop insertPos)

/-- Persisted state of the sync pipeline: the markdown store
(`haro_emails.md`; `none` when the file does not exist) and the `email_id`
fields of the `haro_requests.json` entries. -/
structure SyncState where
  mdFile : Option (List Char)
  requests : List (Option (List Char))
deriving DecidableEq, Repr

/-- Run environment of one invocation of `main`: the mailbox, the
`parsedate_to_datetime` oracle (day values), the current day, and the
`strftime` timestamp used for writes. -/
structure SyncEnv where
  mailbox : List MailMsg
  parse : List Char → Option Int
  now : Int
  gen : List Char

/-- The records `main` ingests in one run: the HARO search results, minus
the already-known ids, each fetched through `process_haro_email` (the
`continue` skip happens before the fetch). -/
def run_ingested (env : SyncEnv) (st : SyncState) : List EmailData :=
  let latest :=
    match st.mdFile with
    | some c => get_latest_email_date_from_markdown env.parse c
    | none => none
  let ids := search_haro_emails env.mailbox latest 30 env.now
  let known := existingEmailIds st.requests
  (ids.filter (fun i => ¬ i ∈ known)).filterMap (process_haro_email env.mailbox)

/-- One invocation of `main`: watermark recovery, windowed search, dedup
and fetch, then either the incremental append, the fresh-file write, or the
placeholder/no-op endings.  `haro_requests.json` is only ever read. -/
def runMain (env : SyncEnv) (st : SyncState) : SyncState :=
  let mdExists := st.mdFile.isSome
  let latest :=
    match st.mdFile with
    | some c => get_latest_email_date_from_markdown env.parse c
    | none => none
  let isIncremental := mdExists ∧ latest.isSome
  let ids := search_haro_emails env.mailbox latest 30 env.now
  if ids = [] then
    if isIncremental then st
    else if mdExists then st
    else ⟨some "# HARO Emails\n\nNo HARO emails found.\n".data, st.requests⟩
  else
    let emails := run_ingested env st
    if emails = [] then
      if isIncremental then st
      else if mdExists then st
      else ⟨some "# HARO Emails\n\nNo new HARO emails found.\n".data, st.requests⟩
    else
      if isIncremental then
        match append_emails_to_markdown emails st.mdFile env.gen with
        | some c => ⟨some c, st.requests⟩
        | none => st
      else ⟨some (initialMarkdown emails env.gen), st.requests⟩

/-- The start day of the fetch window of a run over an existing store
(`main` + `search_haro_emails`): one day after the recovered watermark, or
the 30-day default lookback when no stored date parses. -/
def syncWindowStart (parse : List Char → Option Int) (content : List Char)
    (now : Int) : Int :=
  match get_latest_email_date_from_markdown parse content with
  | some d => d + 1
  | none => now - 30

end FindProspects

namespace FindProspects

/-- Max of two optional dates (`none` is the identity). -/
def optMax : Option Int → Option Int → Option Int
  | none, b => b
  | some x, none => some x
  | some x, some y => some (max x y)

/-- Max of a list of dates, `none` on the empty list. -/
def listMax : List Int → Option Int
  | [] => none
  | x :: xs =>
    match listMax xs with
    | none => some x
    | some m => some (max x m)

/-- The per-capture handling of the watermark loop: strip, skip empty and
`N/A` captures, parse with the date oracle (`none` when skipped or
unparsable). -/
def parsedCandidate (parse : List Char → Option Int) (dsRaw : List Char) : Option Int :=
  let ds := pyStripL dsRaw
  if ds = [] ∨ ds = "N/A".data then none else parse ds

/-- A mailbox of two HARO messages whose `Date:` headers never parse:
message `1` arrived on day 1, message `2` on day 28. -/
def mailboxTwo : List MailMsg :=
  [⟨"1".data, 1, "x".data, "haro daily".data, "s".data, "b1".data⟩,
   ⟨"2".data, 28, "y".data, "haro daily".data, "t".data, "b2".data⟩]

/-- First run environment: day 30, all date strings unparsable. -/
def envDayThirty : SyncEnv := ⟨mailboxTwo, fun _ => none, 30, "G1".data⟩

/-- Second run environment: day 35, same mailbox (no new mail), all date
strings unparsable. -/
def envDayThirtyFive : SyncEnv := ⟨mailboxTwo, fun _ => none, 35, "G2".data⟩

/-- The empty initial state: no markdown store, no persisted requests. -/
def emptySyncState : SyncState := ⟨none, []⟩

/-- The last record of a store that already holds nine records. -/
def storedNinth : EmailData :=
  ⟨"9".data, "d9".data, "s9".data, "f9".data, "body9".data⟩

/-- The record a later incremental run wants to append. -/
def tenthEmail : EmailData :=
  ⟨"10".data, "d10".data, "s10".data, "f10".data, "body10".data⟩

/-- An existing store whose header counts nine records (only the last
rendered block is spelled out; the merge never looks at earlier blocks). -/
def storeOfNine : List Char :=
  storeHeader (natDigits 9) "2025-01-01 00:00:00".data ++
    format_email_for_display storedNinth 8 9

end FindProspects

namespace SendEmails

/-- A qualifying ledger row contributes its stripped-lowered key to
`alreadyContactedKeys`. -/
theorem key_mem_alreadyContactedKeys {rows : List LedgerRow} {r : LedgerRow}
    (hr : r ∈ rows)
    (hstatus : lowerS (pyStripS r.status) = "sent" ∨ lowerS (pyStripS r.status) = "opened")
    (hs : pyStripS r.site ≠ "") (hc : pyStripS r.contact ≠ "") :
    (lowerS (pyStripS r.site), lowerS (pyStripS r.contact)) ∈ alreadyContactedKeys rows := by
  unfold alreadyContactedKeys
  refine List.mem_filterMap.mpr ⟨r, hr, ?_⟩
  simp only
  rw [if_pos ⟨hstatus, hs, hc⟩]

end SendEmails

namespace SendEmails

/-- C2: executing the top-level statements of `send_emails.py` stops with a
`NameError` at the `def send_email` statement, whose `from_name` default
references the unbound module name `SMTP_FROM_NAME`; the module therefore
fails at import time, before `process_messages` or `main` is even defined,
so the dispatch engine can never process an outreach item. -/
theorem send_emails_module_name_error :
    runModule [] sendEmailsModule =
      Except.error "NameError: name SMTP_FROM_NAME is not defined" := by
  rfl

end SendEmails

namespace SendEmails

/-- The `SKIPPED_NO_CONTACT` branch is taken exactly when both contact
fields are Python-falsy, independently of the ledger and the oracles. -/
theorem outcome_skippedNoContact_iff_falsy (contacted : List (String × String))
    (user pw : String) (dns : DnsOracle) (relay : RelayOracle) (now : String)
    (m : MsgData) :
    (processItem contacted user pw dns relay now m).outcome = Outcome.skippedNoContact ↔
      (truthy m.toEmail = false ∧ truthy m.contact_form_url = false) := by
  unfold processItem
  dsimp only
  repeat' split
  all_goals simp_all

/-- C9: for an item whose `to` and `contact_form_url` fields are not the
degenerate empty string (so that Python truthiness coincides with JSON
nullness), the iteration reaches the `SKIPPED_NO_CONTACT` terminal state
(the `log_submission(site, "N/A", "skipped", ...)` branch) if and only if
both fields are null.  The equivalence holds for every item, in particular
for every item that is not already contacted. -/
theorem skipped_no_contact_iff (contacted : List (String × String))
    (user pw : String) (dns : DnsOracle) (relay : RelayOracle) (now : String)
    (m : MsgData) (hto : m.toEmail ≠ some "") (hform : m.contact_form_url ≠ some "") :
    (processItem contacted user pw dns relay now m).outcome = Outcome.skippedNoContact ↔
      (m.toEmail = none ∧ m.contact_form_url = none) := by
  rw [outcome_skippedNoContact_iff_falsy]
  constructor
  · rintro ⟨h1, h2⟩
    constructor
    · rcases hmt : m.toEmail with _ | s
      · rfl
      · rw [hmt] at h1
        have : s = "" := by simpa [truthy] using h1
        exact absurd (hmt.trans (by rw [this])) hto
    · rcases hmf : m.contact_form_url with _ | f
      · rfl
      · rw [hmf] at h2
        have : f = "" := by simpa [truthy] using h2
        exact absurd (hmf.trans (by rw [this])) hform
  · rintro ⟨h1, h2⟩
    rw [h1, h2]
    exact ⟨rfl, rfl⟩

/-- C9 witness: a concrete item with both contact fields null reaches
`SKIPPED_NO_CONTACT`. -/
theorem skipped_no_contact_iff_witness :
    (processItem [] "u" "p" ⟨true, false⟩ ⟨true, ""⟩ "t"
        ⟨some "Acme", none, none, some "s", some "b"⟩).outcome =
      Outcome.skippedNoContact ↔
      ((none : Option String) = none ∧ (none : Option String) = none) :=
  skipped_no_contact_iff [] "u" "p" ⟨true, false⟩ ⟨true, ""⟩ "t"
    ⟨some "Acme", none, none, some "s", some "b"⟩ (by simp) (by simp)

end SendEmails

namespace SendEmails

/-- C8: every iteration of the `process_messages` loop appends exactly one
ledger row when it reaches any terminal state other than
`ALREADY_CONTACTED` (the two skip logs, the domain-validation failure logged
as `failed`, `sent`, and the send failure), and appends none when it
terminates as `ALREADY_CONTACTED`. -/
theorem one_ledger_append_per_item (contacted : List (String × String))
    (user pw : String) (dns : DnsOracle) (relay : RelayOracle) (now : String)
    (m : MsgData) :
    (processItem contacted user pw dns relay now m).appended.length =
      (if (processItem contacted user pw dns relay now m).outcome = Outcome.alreadyContacted
        then 0 else 1) := by
  unfold processItem
  dsimp only
  repeat' split
  all_goals simp_all

end SendEmails

namespace SendEmails

/-- C7: an item whose address has a domain failing the syntactic label check
or DNS resolution is logged once with status `failed` (the
`DOMAIN_INVALID` terminal state) and the SMTP relay is never contacted for
it. -/
theorem domain_invalid_never_contacts_relay (rows : List LedgerRow)
    (user pw : String) (dns : DnsOracle) (relay : RelayOracle) (now : String)
    (m : MsgData) (s d : String)
    (hto : m.toEmail = some s) (hs : s ≠ "")
    (hnc : (lowerS (m.site.getD "Unknown"), lowerS s) ∉ alreadyContactedKeys rows)
    (hd : extract_domain_from_email s = some d) (hdne : d ≠ "")
    (hfail : domainFormatOk d = false ∨ dns.resolves = false) :
    (processItem (alreadyContactedKeys rows) user pw dns relay now m).outcome =
        Outcome.domainInvalid ∧
      (processItem (alreadyContactedKeys rows) user pw dns relay now m).relayContacted =
        false ∧
      (processItem (alreadyContactedKeys rows) user pw dns relay now m).appended.map
          (fun row => row.status) = ["failed"] := by
  have hval : ∃ e, validate_domain dns d = (false, e) := by
    unfold validate_domain
    rcases hfail with hf | hr
    · exact ⟨_, by rw [if_neg hdne, if_pos (by simp [hf])]⟩
    · by_cases hfmt : domainFormatOk d = true
      · exact ⟨_, by rw [if_neg hdne, if_neg (by simp [hfmt]), if_neg (by simp [hr])]⟩
      · exact ⟨_, by rw [if_neg hdne, if_pos (by simp [hfmt])]⟩
  obtain ⟨e, hve⟩ := hval
  unfold processItem
  dsimp only
  repeat' split
  all_goals simp_all [truthy]

end SendEmails

namespace SendEmails

/-- C7 witness: the spec example address `x@nonexistent-xyz123.invalid`
with a non-resolving domain is logged as `failed` without any relay
contact. -/
theorem domain_invalid_never_contacts_relay_witness :
    (processItem (alreadyContactedKeys []) "u" "p" ⟨false, false⟩ ⟨true, ""⟩ "t"
        ⟨some "Acme", some "x@nonexistent-xyz123.invalid", none, some "s", some "b"⟩).outcome =
        Outcome.domainInvalid ∧
      (processItem (alreadyContactedKeys []) "u" "p" ⟨false, false⟩ ⟨true, ""⟩ "t"
        ⟨some "Acme", some "x@nonexistent-xyz123.invalid", none, some "s", some "b"⟩).relayContacted =
        false ∧
      (processItem (alreadyContactedKeys []) "u" "p" ⟨false, false⟩ ⟨true, ""⟩ "t"
        ⟨some "Acme", some "x@nonexistent-xyz123.invalid", none, some "s", some "b"⟩).appended.map
          (fun row => row.status) = ["failed"] :=
  domain_invalid_never_contacts_relay [] "u" "p" ⟨false, false⟩ ⟨true, ""⟩ "t"
    ⟨some "Acme", some "x@nonexistent-xyz123.invalid", none, some "s", some "b"⟩
    "x@nonexistent-xyz123.invalid" "nonexistent-xyz123.invalid"
    rfl (by decide) (by simp [alreadyContactedKeys]) (by decide) (by decide) (Or.inr rfl)

end SendEmails

namespace SendEmails

/-- C1: an outreach item whose `(site, contact)` pair — with contact taken
from the truthy `to` field, else the contact-form URL — matches a persisted
ledger row (site and contact compared case-insensitively on the stripped CSV
values, which must be nonempty) whose status reads `sent` or `opened`
terminates as `ALREADY_CONTACTED`: no ledger row is appended and the relay
is never contacted for it. -/
theorem already_contacted_is_noop_skip (rows : List LedgerRow)
    (user pw : String) (dns : DnsOracle) (relay : RelayOracle) (now : String)
    (m : MsgData) (r : LedgerRow) (hr : r ∈ rows)
    (hsite : lowerS (pyStripS r.site) = lowerS (m.site.getD "Unknown"))
    (hcontact : lowerS (pyStripS r.contact) = lowerS (itemContact m))
    (hstatus : lowerS (pyStripS r.status) = "sent" ∨ lowerS (pyStripS r.status) = "opened")
    (hsne : pyStripS r.site ≠ "") (hcne : pyStripS r.contact ≠ "")
    (hhas : truthy m.toEmail = true ∨ truthy m.contact_form_url = true) :
    processItem (alreadyContactedKeys rows) user pw dns relay now m =
      ⟨Outcome.alreadyContacted, [], false⟩ := by
  have hkey := key_mem_alreadyContactedKeys hr hstatus hsne hcne
  rw [hsite, hcontact] at hkey
  unfold processItem
  dsimp only
  by_cases hT : truthy m.toEmail = true
  · have hic : itemContact m = m.toEmail.getD "" := by
      unfold itemContact
      rw [if_pos hT]
    rw [hic] at hkey
    rw [if_pos ⟨hT, hkey⟩]
  · have hF : truthy m.contact_form_url = true := by
      rcases hhas with h | h
      · exact absurd h hT
      · exact h
    have hic : itemContact m = m.contact_form_url.getD "" := by
      unfold itemContact
      rw [if_neg hT]
    rw [hic] at hkey
    rw [if_neg (fun h => hT h.1), if_pos ⟨hT, hF, hkey⟩]

/-- C1 witness: the spec example — ledger row
`(Acme, a@acme.com, sent)` makes a later dispatch of the same pair a pure
skip. -/
theorem already_contacted_is_noop_skip_witness :
    processItem (alreadyContactedKeys [⟨"t0", "Acme", "a@acme.com", "sent", "n"⟩])
        "u" "p" ⟨true, false⟩ ⟨true, ""⟩ "t1"
        ⟨some "Acme", some "a@acme.com", none, some "subj", some "body"⟩ =
      ⟨Outcome.alreadyContacted, [], false⟩ :=
  already_contacted_is_noop_skip [⟨"t0", "Acme", "a@acme.com", "sent", "n"⟩]
    "u" "p" ⟨true, false⟩ ⟨true, ""⟩ "t1"
    ⟨some "Acme", some "a@acme.com", none, some "subj", some "body"⟩
    ⟨"t0", "Acme", "a@acme.com", "sent", "n"⟩ (by decide)
    (by decide) (by decide) (Or.inl (by decide)) (by decide) (by decide)
    (Or.inl (by decide))

end SendEmails

namespace FindProspects

/-- C10: a sync run never writes `haro_requests.json` — the persisted
request list (and hence the already-known-id set used for deduplication) is
identical before and after every run, whatever the run wrote into the
markdown store. -/
theorem requests_file_never_written (env : SyncEnv) (st : SyncState) :
    (runMain env st).requests = st.requests ∧
      existingEmailIds (runMain env st).requests = existingEmailIds st.requests := by
  have h : (runMain env st).requests = st.requests := by
    unfold runMain
    dsimp only
    repeat' split
    all_goals rfl
  exact ⟨h, by rw [h]⟩

/-- C5: a message whose id is in the already-known-id set drawn from
`haro_requests.json` is never among the records a run ingests (the skip
happens before the body fetch, hence independently of the fetched body). -/
theorem known_id_never_ingested (env : SyncEnv) (st : SyncState)
    (id : List Char) (hid : id ∈ existingEmailIds st.requests) :
    (run_ingested env st).all (fun e => e.email_id ≠ id) = true := by
  rw [List.all_eq_true]
  intro e he
  unfold run_ingested at he
  obtain ⟨i, hi, hpe⟩ := List.mem_filterMap.mp he
  have hiK : ¬ i ∈ existingEmailIds st.requests := by
    simpa using (List.mem_filter.mp hi).2
  have hei : e.email_id = i := by
    unfold process_haro_email at hpe
    rcases hfind : env.mailbox.find? (fun m => m.mid = i) with _ | m
    · rw [hfind] at hpe
      cases hpe
    · rw [hfind] at hpe
      dsimp only at hpe
      by_cases hb : m.body = []
      · rw [if_pos hb] at hpe
        cases hpe
      · rw [if_neg hb] at hpe
        cases hpe
        rfl
  simp only [ne_eq, decide_eq_true_eq]
  intro hcontra
  rw [hei] at hcontra
  rw [hcontra] at hiK
  exact hiK hid

/-- C5 witness: with id `1` persisted in `haro_requests.json`, a run over a
mailbox still holding message `1` ingests nothing with that id. -/
theorem known_id_never_ingested_witness :
    (run_ingested
        ⟨[⟨"1".data, 10, "d".data, "haro".data, "s".data, "b".data⟩],
          fun _ => none, 20, "G".data⟩
        ⟨none, [some "1".data]⟩).all
      (fun e => e.email_id ≠ "1".data) = true :=
  known_id_never_ingested
    ⟨[⟨"1".data, 10, "d".data, "haro".data, "s".data, "b".data⟩],
      fun _ => none, 20, "G".data⟩
    ⟨none, [some "1".data]⟩ "1".data (by decide)

end FindProspects

namespace FindProspects

theorem optMax_assoc (a b c : Option Int) :
    optMax (optMax a b) c = optMax a (optMax b c) := by
  rcases a with _ | x <;> rcases b with _ | y <;> rcases c with _ | z <;>
    simp [optMax, max_assoc]

theorem optMax_none_right (a : Option Int) : optMax a none = a := by
  rcases a with _ | x <;> rfl

theorem listMax_cons (x : Int) (xs : List Int) :
    listMax (x :: xs) = optMax (some x) (listMax xs) := by
  rcases h : listMax xs with _ | m <;> simp [listMax, optMax, h]

/-- One step of the watermark fold is `optMax` with the parsed candidate. -/
theorem watermark_step (parse : List Char → Option Int)
    (latest : Option Int) (dsRaw : List Char) :
    (let ds := pyStripL dsRaw
     if ds = [] ∨ ds = "N/A".data then latest
     else
       match parse ds with
       | some d =>
         match latest with
         | none => some d
         | some l => if d > l then some d else some l
       | none => latest) = optMax latest (parsedCandidate parse dsRaw) := by
  unfold parsedCandidate
  dsimp only
  by_cases hds : pyStripL dsRaw = [] ∨ pyStripL dsRaw = "N/A".data
  · rw [if_pos hds, if_pos hds]
    rcases latest with _ | l <;> rfl
  · rw [if_neg hds, if_neg hds]
    rcases hp : parse (pyStripL dsRaw) with _ | d
    · rcases latest with _ | l <;> rfl
    · rcases latest with _ | l
      · rfl
      · dsimp only
        by_cases hgt : d > l
        · rw [if_pos hgt]
          simp [optMax, max_eq_right (le_of_lt hgt)]
        · rw [if_neg hgt]
          simp [optMax, max_eq_left (not_lt.mp hgt)]

/-- The watermark fold computes the max of the parsed candidates on top of
its accumulator. -/
theorem watermark_fold (parse : List Char → Option Int)
    (l : List (List Char)) (acc : Option Int) :
    l.foldl (fun latest dsRaw =>
      let ds := pyStripL dsRaw
      if ds = [] ∨ ds = "N/A".data then latest
      else
        match parse ds with
        | some d =>
          match latest with
          | none => some d
          | some l => if d > l then some d else some l
        | none => latest) acc =
      optMax acc (listMax (l.filterMap (parsedCandidate parse))) := by
  induction l generalizing acc with
  | nil => rcases acc with _ | x <;> rfl
  | cons x xs ih =>
    rw [List.foldl_cons, ih, watermark_step]
    rcases hp : parsedCandidate parse x with _ | v
    · have hfc : List.filterMap (parsedCandidate parse) (x :: xs) =
          List.filterMap (parsedCandidate parse) xs := by
        simp [List.filterMap_cons, hp]
      rw [hfc, optMax_none_right]
    · have hfc : List.filterMap (parsedCandidate parse) (x :: xs) =
          v :: List.filterMap (parsedCandidate parse) xs := by
        simp [List.filterMap_cons, hp]
      rw [hfc, listMax_cons, optMax_assoc]

/-- C4: the recovered watermark is exactly the maximum of the `**Date:**`
captures that survive stripping/`N/A` filtering and parse under the date
oracle (unparsable captures are skipped), and the next fetch window starts
one day after it; when no capture parses the window falls back to the
30-day default lookback instead of failing. -/
theorem watermark_max_and_window (parse : List Char → Option Int)
    (content : List Char) (now : Int) :
    get_latest_email_date_from_markdown parse content =
        listMax ((findallDates content).filterMap (parsedCandidate parse)) ∧
      syncWindowStart parse content now =
        (match listMax ((findallDates content).filterMap (parsedCandidate parse)) with
         | some d => d + 1
         | none => now - 30) := by
  have h1 : get_latest_email_date_from_markdown parse content =
      listMax ((findallDates content).filterMap (parsedCandidate parse)) := by
    unfold get_latest_email_date_from_markdown
    rw [watermark_fold]
    rcases listMax ((findallDates content).filterMap (parsedCandidate parse)) with _ | m <;> rfl
  refine ⟨h1, ?_⟩
  unfold syncWindowStart
  rw [h1]


set_option maxRecDepth 100000 in
/-- C3: running the sync twice over an unchanged mailbox is *not* a no-op
when no stored date parses.  The first run (day 30) ingests both messages;
the second run (day 35) cannot recover a watermark, falls back to the
30-day window, refetches only message `2` (day 28; day 1 left the window),
and — because the non-incremental branch recreates the file — rewrites the
store, dropping the record with body `b1` that the first run persisted. -/
theorem second_run_rewrites_store :
    runMain envDayThirtyFive (runMain envDayThirty emptySyncState) ≠
        runMain envDayThirty emptySyncState ∧
      containsSub "b1".data
          ((runMain envDayThirty emptySyncState).mdFile.getD []) = true ∧
      containsSub "b1".data
          ((runMain envDayThirtyFive (runMain envDayThirty emptySyncState)).mdFile.getD [])
        = false := by
  decide


set_option maxRecDepth 100000 in
/-- C6: the merge is not a clean append when the decimal width of the
Total-Emails counter grows.  Appending one record to a store counting nine
records yields a file different from the counter-updated store followed by
the rendered new record: the `re.sub` rewrites lengthen the content by one
byte, the splice index was computed on the pre-rewrite content, and the new
block lands one byte early — inside the final separator, producing the glued
line `---## Email 10 of 10`. -/
theorem merge_splices_inside_final_separator :
    append_emails_to_markdown [tenthEmail] (some storeOfNine)
          "2025-01-02 00:00:00".data ≠
        some (subGenerated "2025-01-02 00:00:00".data (subTotal 10 storeOfNine) ++
          renderBatch [tenthEmail] 9) ∧
      containsSub "\n---## Email 10 of 10".data
          ((append_emails_to_markdown [tenthEmail] (some storeOfNine)
              "2025-01-02 00:00:00".data).getD []) = true := by
  decide


end FindProspects
